import Mathlib

/-!
Verification development for the LitSync browser extension
(repository `RfailesDev/LitSyncCOMBO`).

Shallow embedding of the two state machines at the core of the extension:

* the Generation Watcher (`watcherTick`, content script part_002,
  lines 1295-1346), a polling state machine detecting "response being
  generated" vs "idle" from the run-control's label text plus a
  content-length stability check;

* the Stream Shortener (`processShorteningForContainer` and the finalize
  timer, `responseShortener.js`, lines 204-262), a per-message state machine
  (`initial` -> `streaming` -> `final`) on `data-` attributes that replaces
  a marker-delimited region of streamed markup with a placeholder;

* the periodic scanner (`scanAndProcessMessages`, part_002 lines 249-294)
  that discovers message containers once and wires shortener instances.

DOM observations made by a tick (presence of the run button, the label text,
content length of the newest message, the current time, stored settings) are
modelled as explicit tick inputs; markup is modelled as `List Char`, and
JavaScript's `String.prototype.indexOf` / `includes` / `substring` are
embedded as list functions.
-/

namespace LitSync

set_option maxRecDepth 40000

/-!
Generation Watcher data model.  Source: the `watcherSystem` global
(part_002 lines 49-55) and `watcherTick` (lines 1295-1346), constants from
lines 27-28.
-/

inductive WStatus
  | IDLE
  | GENERATING
deriving DecidableEq, Repr

/-- Sound settings record as stored in `chrome.storage.sync` under
`soundSettings` (enabled flag, sound identifier, volume).  Volume is a
rational: the source only ever stores and compares it, never computes. -/
structure SoundSettings where
  enabled : Bool
  sound : String
  volume : ℚ
deriving DecidableEq, Repr

/-- Default passed to `chrome.storage.sync.get` at part_002 line 1310:
`{ enabled: false, sound: 'complete1', volume: 0.5 }`. -/
def defaultSoundSettings : SoundSettings :=
  { enabled := false, sound := "complete1", volume := 1/2 }

/-- The `watcherSystem` mutable record (part_002 lines 49-55), minus the
interval id, which only controls scheduling. -/
structure WatcherState where
  status : WStatus
  lastContentLength : Int
  stableSince : Option Nat
  soundSettings : Option SoundSettings
deriving DecidableEq, Repr

/-- Initial value of `watcherSystem` (part_002 lines 49-55). -/
def initialWatcherState : WatcherState :=
  { status := .IDLE, lastContentLength := -1, stableSince := none,
    soundSettings := none }

/-- Everything one invocation of `watcherTick` reads from its environment:
whether `document.querySelector(PROMPT_SEND_BUTTON_SELECTOR)` finds the run
button, whether its `textContent` includes `'Stop'`, whether a latest
message container exists, the `textContent.length` of its content area
(`none` when `querySelector(CONTENT_AREA_SELECTOR)` finds nothing),
`Date.now()`, and the stored `soundSettings` (`none` when the key is unset,
so that the supplied default applies). -/
structure TickInput where
  runButtonPresent : Bool
  labelHasStop : Bool
  containerPresent : Bool
  contentLen : Option Nat
  now : Nat
  storedSoundSettings : Option SoundSettings
deriving Repr

/-- Constant `RESPONSE_DEBOUNCE_MS` (part_002 line 28). -/
def RESPONSE_DEBOUNCE_MS : Nat := 1200

/-- The stability-sampling block of `watcherTick` (part_002 lines
1320-1332): executed each tick in GENERATING.  When no latest container
exists the whole block is skipped; when the container exists but its
content area does not, the length is `0` (`contentArea ? ... : 0`). -/
def sampleStability (s : WatcherState) (i : TickInput) : WatcherState :=
  if i.containerPresent then
    if s.lastContentLength < ((i.contentLen.getD 0 : Nat) : Int) then
      { s with stableSince := none,
               lastContentLength := ((i.contentLen.getD 0 : Nat) : Int) }
    else if s.stableSince = none then
      { s with stableSince := some i.now }
    else s
  else s

/-- The completion condition of part_002 line 1338:
`!isCurrentlyGenerating && watcherSystem.stableSince &&
(Date.now() - watcherSystem.stableSince >= RESPONSE_DEBOUNCE_MS)`.
JavaScript truthiness of `stableSince` makes the timestamp `0` falsy, and
the subtraction is over numbers, hence the cast to `Int`. -/
def completionCond (stableSince : Option Nat) (labelHasStop : Bool)
    (now : Nat) : Bool :=
  !labelHasStop &&
    match stableSince with
    | none => false
    | some t => decide (0 < t) &&
        decide ((RESPONSE_DEBOUNCE_MS : Int) ≤ (now : Int) - (t : Int))

/-- Function `watcherTick` (part_002 lines 1295-1346) as a pure step
function.  Returns the new state and whether the completion-sound side
effect was triggered on this tick (the `playCompletionSound` call at line
1341, guarded by `soundSettings && soundSettings.enabled`). -/
def watcherTick (s : WatcherState) (i : TickInput) : WatcherState × Bool :=
  if !i.runButtonPresent then (s, false)
  else if s.status = .IDLE ∧ i.labelHasStop then
    ({ status := .GENERATING, lastContentLength := -1, stableSince := none,
       soundSettings := some (i.storedSoundSettings.getD defaultSoundSettings) },
     false)
  else if s.status = .GENERATING then
    let s1 := sampleStability s i
    if completionCond s1.stableSince i.labelHasStop i.now then
      ({ s1 with status := .IDLE },
       match s1.soundSettings with
       | some ss => ss.enabled
       | none => false)
    else (s1, false)
  else (s, false)

/-- Run a sequence of ticks, counting how many of them triggered the
completion-sound side effect. -/
def watcherRun (s : WatcherState) : List TickInput → WatcherState × Nat
  | [] => (s, 0)
  | i :: rest =>
    let r := watcherTick s i
    let rr := watcherRun r.1 rest
    (rr.1, (if r.2 then 1 else 0) + rr.2)

/-!
JavaScript string primitives on `List Char`: `s.indexOf(pat)` returns the
first index of an occurrence of `pat` in `s` (`none` embeds JavaScript's
`-1`); `s.includes(pat)` is its Boolean form; `s.substring(0, k)` is
`List.take k` and `s.substring(k)` is `List.drop k`.
-/

/-- Embedding of `s.indexOf(pat)`: index of the first occurrence of `pat`
in `s`. -/
def jsIndexOf : List Char → List Char → Option Nat
  | [], pat => if pat.isPrefixOf [] then some 0 else none
  | c :: t, pat =>
    if pat.isPrefixOf (c :: t) then some 0 else (jsIndexOf t pat).map (· + 1)

/-- Embedding of `s.includes(pat)`. -/
def jsIncludes (s pat : List Char) : Bool := (jsIndexOf s pat).isSome

/-- Specification-side notion: `pat` occurs in `s` at index `k`. -/
def occursAt (s pat : List Char) (k : Nat) : Prop :=
  pat.isPrefixOf (s.drop k) = true

instance (s pat : List Char) (k : Nat) : Decidable (occursAt s pat k) := by
  unfold occursAt
  infer_instance

/-- Specification-side notion: `k` is the index of the FIRST occurrence of
`pat` in `s`. -/
def firstOccurrenceAt (s pat : List Char) (k : Nat) : Prop :=
  occursAt s pat k ∧ ∀ j, j < k → ¬ occursAt s pat j

instance (s pat : List Char) (k : Nat) : Decidable (firstOccurrenceAt s pat k) := by
  unfold firstOccurrenceAt
  infer_instance

/-!
Stream Shortener data model.  Source: `responseShortener.js` (the second
module in the `keep_active.js` file group), constants at lines 147-159,
`processShorteningForContainer` at lines 204-262,
`cleanupShorteningForContainer` at lines 290-305.
-/

/-- Constant `START_TAG_ESCAPED` (line 147). -/
def START_TAG_ESCAPED : List Char := "&lt;files&gt;".data

/-- Constant `END_TAG_ESCAPED` (line 148). -/
def END_TAG_ESCAPED : List Char := "&lt;/files&gt;".data

/-- Serialization (`outerHTML`) of `createShortenedPlaceholder()`
(lines 187-198): a div of class `litsync-shortened-content` holding a
spinner div and a static text label. -/
def placeholderHTML : List Char :=
  ("<div class=\"litsync-shortened-content\"><div class=\"litsync-spinner\"></div>"
    ++ "Код файлов проекта сокращен для удобства.</div>").data

/-- State of one message container's shortener: the content area's
`innerHTML`, the `data-litsync-shortened` attribute (`none` when unset),
the `data-litsync-html-before` attribute, whether the per-container
`MutationObserver` is connected, the id stored in `debounceTimerMap` for
this content area, the ids of finalize timers that are scheduled and
neither cancelled nor fired yet, a fresh-id counter, and a history counter
of how many `streaming -> final` transitions have been performed. -/
structure ShortState where
  html : List Char
  stateAttr : Option String
  htmlBeforeAttr : Option (List Char)
  observerConnected : Bool
  timerMapEntry : Option Nat
  liveTimers : List Nat
  nextTimerId : Nat
  finalCount : Nat
deriving DecidableEq, Repr

/-- A freshly wired container whose content area currently shows `h`
(after `initializeShorteningForContainer`, lines 269-284: observer
attached, no attributes, no timers). -/
def initialShortState (h : List Char) : ShortState :=
  { html := h, stateAttr := none, htmlBeforeAttr := none,
    observerConnected := true, timerMapEntry := none, liveTimers := [],
    nextTimerId := 1, finalCount := 0 }

/-- Embedding of `cleanupShorteningForContainer` (lines 290-305):
disconnect the observer and remove it from the observer map, then
`clearTimeout` the timer stored in `debounceTimerMap` for the content area
(a no-op for a timer that already fired) and delete the entry. -/
def cleanupShorteningForContainer (s : ShortState) : ShortState :=
  let s1 := { s with observerConnected := false }
  match s1.timerMapEntry with
  | some id =>
    { s1 with liveTimers := s1.liveTimers.erase id, timerMapEntry := none }
  | none => s1

/-- Embedding of `processShorteningForContainer` (lines 204-262), minus
the body of the `setTimeout` callback (which runs later, see
`fireFinalizeTimer`).  In state `'final'` it returns immediately.  In state
`'streaming'`, when the end marker is present it cancels the timer recorded
in `debounceTimerMap` (a no-op if that timer already fired) and schedules a
fresh finalize timer, recording it in the map.  Otherwise (the initial
state) it looks for the start marker; when found at `startIndex` it stores
the markup before the marker in `data-litsync-html-before`, replaces the
markup with that stored part followed by the placeholder, and sets the
state attribute to `'streaming'`. -/
def processShorteningForContainer (s : ShortState) : ShortState :=
  if s.stateAttr = some "final" then s
  else if s.stateAttr = some "streaming" then
    if jsIncludes s.html END_TAG_ESCAPED then
      let live1 := match s.timerMapEntry with
        | some id => s.liveTimers.erase id
        | none => s.liveTimers
      { s with liveTimers := live1 ++ [s.nextTimerId],
               timerMapEntry := some s.nextTimerId,
               nextTimerId := s.nextTimerId + 1 }
    else s
  else
    match jsIndexOf s.html START_TAG_ESCAPED with
    | some startIndex =>
      let htmlBefore := s.html.take startIndex
      { s with htmlBeforeAttr := some htmlBefore,
               html := htmlBefore ++ placeholderHTML,
               stateAttr := some "streaming" }
    | none => s

/-- The `setTimeout` callback scheduled at lines 221-238, fired for timer
`id`; a timer only fires if it is still scheduled and uncancelled, and
firing consumes it.  The callback re-reads `innerHTML`; if the end marker
has disappeared it returns.  Otherwise it runs
`cleanupShorteningForContainer` (disconnecting the observer BEFORE the DOM
write), reconstructs the markup as stored-markup-before + placeholder +
everything after the end marker, sets the state attribute to `'final'`,
removes the `data-litsync-html-before` attribute and deletes the timer map
entry. -/
def fireFinalizeTimer (s : ShortState) (id : Nat) : ShortState :=
  if id ∈ s.liveTimers then
    let s0 := { s with liveTimers := s.liveTimers.erase id }
    match jsIndexOf s0.html END_TAG_ESCAPED with
    | none => s0
    | some finalEndIndex =>
      let s1 := cleanupShorteningForContainer s0
      let htmlBefore := s1.htmlBeforeAttr.getD []
      let htmlAfter := s0.html.drop (finalEndIndex + END_TAG_ESCAPED.length)
      { s1 with html := htmlBefore ++ placeholderHTML ++ htmlAfter,
                stateAttr := some "final",
                htmlBeforeAttr := none,
                timerMapEntry := none,
                finalCount := s1.finalCount + 1 }
  else s

/-- Events a container's shortener is subject to: an invocation of the
throttled processing callback, a scheduled finalize timer firing, or the
host page rewriting the content area's markup (the external stream). -/
inductive SEvent
  | process
  | fire (id : Nat)
  | mutate (h : List Char)

/-- One shortener event step. -/
def stepShort (s : ShortState) : SEvent → ShortState
  | .process => processShorteningForContainer s
  | .fire id => fireFinalizeTimer s id
  | .mutate h => { s with html := h }

/-- Run a sequence of shortener events. -/
def runShort (s : ShortState) : List SEvent → ShortState
  | [] => s
  | e :: es => runShort (stepShort s e) es

/-- Timer sanity invariant: at most one finalize timer is outstanding, and
any outstanding timer is the one recorded in `debounceTimerMap`. -/
def TimerInv (s : ShortState) : Prop :=
  s.liveTimers.length ≤ 1 ∧ ∀ id ∈ s.liveTimers, s.timerMapEntry = some id

instance (s : ShortState) : Decidable (TimerInv s) := by
  unfold TimerInv
  infer_instance

/-- Terminal configuration of a container: state attribute `'final'` and no
outstanding finalize timer. -/
def FinalDead (s : ShortState) : Prop :=
  s.stateAttr = some "final" ∧ s.liveTimers = []

/-!
Periodic scanner.  Source: `scanAndProcessMessages` (part_002 lines
249-294), the `isShortenEnabled` flag (line 46) and the
`chrome.storage.onChanged` listener (lines 1469-1487).
-/

/-- One message container as the scanner sees it: whether it carries the
`PROCESSED_MARKER` class, whether `querySelector(CONTENT_AREA_SELECTOR)`
finds a content area inside it, and whether
`initializeShorteningForContainer` has wired a shortener to it (the
`data-litsync-shorten-init` guard plus observer attachment). -/
structure MsgContainer where
  processed : Bool
  hasContentArea : Bool
  shortenerWired : Bool
deriving DecidableEq, Repr

/-- The per-container body of the first `forEach` of
`scanAndProcessMessages` (lines 250-274): the selector
`:not(.PROCESSED_MARKER)` skips processed containers; an unprocessed
container is marked processed and, only if `isShortenEnabled` holds and a
content area is found, gets a shortener wired (wiring is itself guarded by
the init flag, lines 270-273). -/
def scanContainer (enabled : Bool) (c : MsgContainer) : MsgContainer :=
  if c.processed then c
  else
    let c1 := { c with processed := true }
    if enabled && c1.hasContentArea && !c1.shortenerWired then
      { c1 with shortenerWired := true }
    else c1

/-- Scanner-level state: the containers in the document in document order,
and the global `isShortenEnabled` flag. -/
structure ScannerState where
  containers : List MsgContainer
  isShortenEnabled : Bool
deriving DecidableEq, Repr

/-- Embedding of `scanAndProcessMessages` restricted to message
containers. -/
def scanAndProcessMessages (st : ScannerState) : ScannerState :=
  { st with containers := st.containers.map (scanContainer st.isShortenEnabled) }

/-- Events driving the scanner model: a scanner tick; the
`chrome.storage.onChanged` listener observing a new `isShortenEnabled`
value (lines 1478-1486: it updates the flag and, on disabling, runs
`cleanupShorteningForContainer` on every container, which disconnects
observers and timers but clears neither the processed marker nor the
wiring guard); the host page appending a new message container. -/
inductive ScanEvent
  | scan
  | setShortenEnabled (b : Bool)
  | appendContainer (hasContentArea : Bool)

/-- One scanner-model step. -/
def stepScan (st : ScannerState) : ScanEvent → ScannerState
  | .scan => scanAndProcessMessages st
  | .setShortenEnabled b => { st with isShortenEnabled := b }
  | .appendContainer h =>
    { st with containers := st.containers ++
        [{ processed := false, hasContentArea := h, shortenerWired := false }] }

/-- Run a sequence of scanner events. -/
def runScan (st : ScannerState) : List ScanEvent → ScannerState
  | [] => st
  | e :: es => runScan (stepScan st e) es

/-- Index-`i` container is processed but carries no shortener wiring. -/
def WiredFree (i : Nat) (st : ScannerState) : Prop :=
  ∃ c, st.containers[i]? = some c ∧ c.processed = true ∧ c.shortenerWired = false

/-!
Concrete instances used by witnesses and the counterexample trace.
-/

/-- A GENERATING watcher state with a running stability timer. -/
def wGenState : WatcherState :=
  { status := .GENERATING, lastContentLength := 5, stableSince := some 100,
    soundSettings := some { enabled := true, sound := "complete1", volume := 1/2 } }

/-- A tick observation: label has no stop text, content stable, debounce
elapsed. -/
def wFireInput : TickInput :=
  { runButtonPresent := true, labelHasStop := false, containerPresent := true,
    contentLen := some 5, now := 2000, storedSoundSettings := none }

/-- A tick observation with growing content. -/
def wGrowInput : TickInput :=
  { runButtonPresent := true, labelHasStop := false, containerPresent := true,
    contentLen := some 10, now := 2000, storedSoundSettings := none }

/-- A tick observation whose label contains the stop text. -/
def wStartInput : TickInput :=
  { runButtonPresent := true, labelHasStop := true, containerPresent := true,
    contentLen := some 7, now := 50, storedSoundSettings := none }

/-- A four-tick observation trace: generation starts, content grows to 5,
becomes stable at time 2000, and the run completes at time 4000. -/
def c3Trace : List TickInput :=
  [ { runButtonPresent := true, labelHasStop := true, containerPresent := false,
      contentLen := none, now := 10, storedSoundSettings := none },
    { runButtonPresent := true, labelHasStop := false, containerPresent := true,
      contentLen := some 5, now := 1000, storedSoundSettings := none },
    { runButtonPresent := true, labelHasStop := false, containerPresent := true,
      contentLen := some 5, now := 2000, storedSoundSettings := none },
    { runButtonPresent := true, labelHasStop := false, containerPresent := true,
      contentLen := some 5, now := 4000, storedSoundSettings := none } ]

/-- A streaming-phase container whose markup (re-read at fire time) is the
specification's test vector, with one pending finalize timer. -/
def c2State : ShortState :=
  { html := "<p>A</p>&lt;files&gt;BIGBLOB&lt;/files&gt;<p>Z</p>".data,
    stateAttr := some "streaming",
    htmlBeforeAttr := some "<p>A</p>".data,
    observerConnected := true,
    timerMapEntry := some 1,
    liveTimers := [1],
    nextTimerId := 2,
    finalCount := 0 }

/-- A streaming-phase container whose markup no longer contains the end
marker, with one pending finalize timer. -/
def c7State : ShortState :=
  { html := "<p>A</p>".data ++ placeholderHTML,
    stateAttr := some "streaming",
    htmlBeforeAttr := some "<p>A</p>".data,
    observerConnected := true,
    timerMapEntry := some 1,
    liveTimers := [1],
    nextTimerId := 2,
    finalCount := 0 }

/-- A freshly wired container whose markup contains the start marker at
index 8. -/
def c8State : ShortState := initialShortState "<p>A</p>&lt;files&gt;BIG".data

/-- A scanner state with one already-processed, unwired container and the
shortening feature enabled. -/
def c10State : ScannerState :=
  { containers := [{ processed := true, hasContentArea := true, shortenerWired := false }],
    isShortenEnabled := true }

/-!
Helper lemmas.
-/

theorem occursAt_zero (s pat : List Char) :
    occursAt s pat 0 ↔ pat.isPrefixOf s = true := by
  simp [occursAt]

theorem occursAt_cons_succ (c : Char) (t pat : List Char) (j : Nat) :
    occursAt (c :: t) pat (j + 1) ↔ occursAt t pat j := by
  simp [occursAt]

theorem jsIndexOf_eq_some_iff (s pat : List Char) (k : Nat) :
    jsIndexOf s pat = some k ↔ firstOccurrenceAt s pat k := by
  induction s generalizing k with
  | nil =>
    by_cases hp : pat.isPrefixOf ([] : List Char) = true
    · simp only [jsIndexOf, hp, if_true, Option.some.injEq]
      constructor
      · intro h
        subst h
        exact ⟨by simpa [occursAt] using hp, fun j hj => absurd hj (by omega)⟩
      · rintro ⟨hk, hmin⟩
        rcases Nat.eq_zero_or_pos k with h0 | h0
        · exact h0.symm
        · exact absurd (by simpa [occursAt] using hp) (hmin 0 h0)
    · simp only [jsIndexOf, hp, if_false]
      constructor
      · intro h
        exact absurd h (by simp)
      · rintro ⟨hk, hmin⟩
        exact absurd (by simpa [occursAt] using hk) hp
  | cons c t ih =>
    by_cases hp : pat.isPrefixOf (c :: t) = true
    · simp only [jsIndexOf, hp, if_true, Option.some.injEq]
      constructor
      · intro h
        subst h
        exact ⟨by simpa [occursAt] using hp, fun j hj => absurd hj (by omega)⟩
      · rintro ⟨hk, hmin⟩
        rcases Nat.eq_zero_or_pos k with h0 | h0
        · exact h0.symm
        · exact absurd (by simpa [occursAt] using hp) (hmin 0 h0)
    · simp only [jsIndexOf, hp, if_false]
      constructor
      · intro h
        rcases Option.map_eq_some'.mp h with ⟨k', hk', hkk⟩
        subst hkk
        obtain ⟨hocc, hmin⟩ := (ih k').mp hk'
        refine ⟨by simpa [occursAt_cons_succ] using hocc, ?_⟩
        intro j hj
        cases j with
        | zero =>
          intro hocc0
          exact hp (by simpa [occursAt] using hocc0)
        | succ j' =>
          intro hocc'
          exact hmin j' (by omega) (by simpa [occursAt_cons_succ] using hocc')
      · rintro ⟨hocc, hmin⟩
        cases k with
        | zero => exact absurd (by simpa [occursAt] using hocc) hp
        | succ k' =>
          have h1 : firstOccurrenceAt t pat k' := by
            refine ⟨by simpa [occursAt_cons_succ] using hocc, ?_⟩
            intro j hj hocc'
            exact hmin (j + 1) (by omega) (by simpa [occursAt_cons_succ] using hocc')
          rw [(ih k').mpr h1]
          rfl

theorem jsIndexOf_eq_none_iff (s pat : List Char) :
    jsIndexOf s pat = none ↔ ∀ j, ¬ occursAt s pat j := by
  induction s with
  | nil =>
    by_cases hp : pat.isPrefixOf ([] : List Char) = true
    · simp only [jsIndexOf, hp, if_true]
      constructor
      · intro h
        exact absurd h (by simp)
      · intro h
        exact absurd (by simpa [occursAt] using hp) (h 0)
    · simp only [jsIndexOf, hp, Bool.false_eq_true, if_false, true_iff]
      intro j
      simp only [occursAt, List.drop_nil]
      intro h
      exact hp h
  | cons c t ih =>
    by_cases hp : pat.isPrefixOf (c :: t) = true
    · simp only [jsIndexOf, hp, if_true]
      constructor
      · intro h
        exact absurd h (by simp)
      · intro h
        exact absurd (by simpa [occursAt] using hp) (h 0)
    · simp only [jsIndexOf, hp, Bool.false_eq_true, if_false, Option.map_eq_none', ih]
      constructor
      · intro h j
        cases j with
        | zero =>
          intro h0
          exact hp (by simpa [occursAt] using h0)
        | succ j' => simpa [occursAt_cons_succ] using h j'
      · intro h j
        simpa [occursAt_cons_succ] using h (j + 1)

theorem sampleStability_status (s : WatcherState) (i : TickInput) :
    (sampleStability s i).status = s.status := by
  unfold sampleStability
  repeat' split
  all_goals rfl

theorem sampleStability_sound (s : WatcherState) (i : TickInput) :
    (sampleStability s i).soundSettings = s.soundSettings := by
  unfold sampleStability
  repeat' split
  all_goals rfl

theorem sampleStability_pos (s : WatcherState) (i : TickInput)
    (hnow : 0 < i.now) (hts : ∀ t, s.stableSince = some t → 0 < t) :
    ∀ t, (sampleStability s i).stableSince = some t → 0 < t := by
  unfold sampleStability
  split
  · split
    · intro t ht
      exact absurd ht (by simp)
    · split
      · intro t ht
        simp only [Option.some.injEq] at ht
        omega
      · exact hts
  · exact hts

theorem watcherTick_gen (s : WatcherState) (i : TickInput)
    (hgen : s.status = .GENERATING) (hbtn : i.runButtonPresent = true) :
    watcherTick s i =
      (if completionCond (sampleStability s i).stableSince i.labelHasStop i.now
       then ({ sampleStability s i with status := .IDLE },
             match (sampleStability s i).soundSettings with
             | some ss => ss.enabled
             | none => false)
       else (sampleStability s i, false)) := by
  unfold watcherTick
  simp [hbtn, hgen]

theorem watcherTick_idle_nostop (s : WatcherState) (i : TickInput)
    (hidle : s.status = .IDLE) (hstop : i.labelHasStop = false) :
    watcherTick s i = (s, false) := by
  unfold watcherTick
  cases hb : i.runButtonPresent <;> simp [hidle, hstop, hb]

theorem watcherRun_idle_nostop (s : WatcherState) (hidle : s.status = .IDLE) :
    ∀ l : List TickInput, (∀ j ∈ l, j.labelHasStop = false) →
      watcherRun s l = (s, 0) := by
  intro l
  induction l with
  | nil => intro _; rfl
  | cons j rest ih =>
    intro h
    have hj : j.labelHasStop = false := h j (by simp)
    have hrest : ∀ x ∈ rest, x.labelHasStop = false := fun x hx => h x (by simp [hx])
    simp [watcherRun, watcherTick_idle_nostop s j hidle hj, ih hrest]

theorem process_final (t : ShortState) (h : t.stateAttr = some "final") :
    processShorteningForContainer t = t := by
  unfold processShorteningForContainer
  simp [h]

theorem timerInv_mem_eq (s : ShortState) (hinv : TimerInv s) (id : Nat)
    (hid : id ∈ s.liveTimers) :
    s.liveTimers = [id] ∧ s.timerMapEntry = some id := by
  obtain ⟨hlen, hmem⟩ := hinv
  refine ⟨?_, hmem id hid⟩
  cases hl : s.liveTimers with
  | nil =>
    rw [hl] at hid
    simp at hid
  | cons x xs =>
    rw [hl] at hlen hid
    cases xs with
    | nil =>
      simp at hid
      rw [hid]
    | cons y ys => simp at hlen

theorem process_streaming_end (s : ShortState) (hstr : s.stateAttr = some "streaming")
    (hinv : TimerInv s) (hend : jsIncludes s.html END_TAG_ESCAPED = true) :
    processShorteningForContainer s =
      { s with liveTimers := [s.nextTimerId],
               timerMapEntry := some s.nextTimerId,
               nextTimerId := s.nextTimerId + 1 } := by
  have hlive : (match s.timerMapEntry with
      | some id => s.liveTimers.erase id
      | none => s.liveTimers) = [] := by
    cases hl : s.liveTimers with
    | nil => cases s.timerMapEntry <;> simp
    | cons x xs =>
      obtain ⟨hl1, hm1⟩ := timerInv_mem_eq s hinv x (by rw [hl]; simp)
      have hxs : xs = [] := by
        have hx := hl.symm.trans hl1
        injection hx with _ h2
      subst hxs
      rw [hm1]
      simp
  unfold processShorteningForContainer
  simp [hstr, hend, hlive]

theorem timerInv_process (s : ShortState) (h : TimerInv s) :
    TimerInv (processShorteningForContainer s) := by
  by_cases hfin : s.stateAttr = some "final"
  · rw [process_final s hfin]
    exact h
  · by_cases hstr : s.stateAttr = some "streaming"
    · by_cases hend : jsIncludes s.html END_TAG_ESCAPED = true
      · rw [process_streaming_end s hstr h hend]
        constructor
        · simp [TimerInv]
        · intro id hid
          simp at hid
          simp [hid]
      · have heq : processShorteningForContainer s = s := by
          unfold processShorteningForContainer
          simp [hstr, hfin, hend]
        rw [heq]
        exact h
    · unfold processShorteningForContainer
      simp only [hstr, hfin, if_false]
      cases hidx : jsIndexOf s.html START_TAG_ESCAPED with
      | none => simpa [hidx] using h
      | some k => simpa [hidx] using h

theorem timerInv_fire (s : ShortState) (id : Nat) (h : TimerInv s) :
    TimerInv (fireFinalizeTimer s id) := by
  unfold fireFinalizeTimer
  by_cases hid : id ∈ s.liveTimers
  · obtain ⟨hl, hm⟩ := timerInv_mem_eq s h id hid
    simp only [hid, if_true]
    rw [hl]
    simp only [List.erase_cons_head]
    cases hidx : jsIndexOf s.html END_TAG_ESCAPED with
    | none => simp [TimerInv]
    | some k =>
      unfold cleanupShorteningForContainer
      rw [hm]
      simp [TimerInv]
  · simp [hid]
    exact h

theorem timerInv_step (s : ShortState) (e : SEvent) (h : TimerInv s) :
    TimerInv (stepShort s e) := by
  cases e with
  | process => exact timerInv_process s h
  | fire id => exact timerInv_fire s id h
  | mutate h' => exact h

theorem fire_end_present (s : ShortState) (id : Nat) (k : Nat)
    (hid : id ∈ s.liveTimers)
    (hk : jsIndexOf s.html END_TAG_ESCAPED = some k) :
    fireFinalizeTimer s id =
      { html := s.htmlBeforeAttr.getD [] ++ placeholderHTML ++
          s.html.drop (k + END_TAG_ESCAPED.length),
        stateAttr := some "final",
        htmlBeforeAttr := none,
        observerConnected := false,
        timerMapEntry := none,
        liveTimers := (match s.timerMapEntry with
          | some tid => (s.liveTimers.erase id).erase tid
          | none => s.liveTimers.erase id),
        nextTimerId := s.nextTimerId,
        finalCount := s.finalCount + 1 } := by
  unfold fireFinalizeTimer cleanupShorteningForContainer
  simp only [hid, if_true, hk]
  cases s.timerMapEntry <;> rfl

theorem finalDead_step (s : ShortState) (e : SEvent) (h : FinalDead s) :
    FinalDead (stepShort s e) ∧ (stepShort s e).finalCount = s.finalCount := by
  obtain ⟨hfin, hlive⟩ := h
  cases e with
  | process =>
    simp only [stepShort]
    rw [process_final s hfin]
    exact ⟨⟨hfin, hlive⟩, rfl⟩
  | fire id =>
    simp only [stepShort]
    have heq : fireFinalizeTimer s id = s := by
      unfold fireFinalizeTimer
      rw [hlive]
      simp
    rw [heq]
    exact ⟨⟨hfin, hlive⟩, rfl⟩
  | mutate h' =>
    exact ⟨⟨hfin, hlive⟩, rfl⟩

theorem finalDead_run (s : ShortState) (evs : List SEvent) (h : FinalDead s) :
    FinalDead (runShort s evs) ∧ (runShort s evs).finalCount = s.finalCount := by
  induction evs generalizing s with
  | nil => exact ⟨h, rfl⟩
  | cons e es ih =>
    obtain ⟨h1, h2⟩ := finalDead_step s e h
    obtain ⟨h3, h4⟩ := ih (stepShort s e) h1
    exact ⟨h3, by simp only [runShort]; rw [h4, h2]⟩

theorem process_iter_streaming (s : ShortState) (hinv : TimerInv s)
    (hstr : s.stateAttr = some "streaming")
    (hend : jsIncludes s.html END_TAG_ESCAPED = true) :
    ∀ n : Nat, 1 ≤ n →
      TimerInv (processShorteningForContainer^[n] s) ∧
      (processShorteningForContainer^[n] s).stateAttr = some "streaming" ∧
      (processShorteningForContainer^[n] s).html = s.html ∧
      (processShorteningForContainer^[n] s).finalCount = s.finalCount ∧
      ∃ id, (processShorteningForContainer^[n] s).liveTimers = [id] ∧
        (processShorteningForContainer^[n] s).timerMapEntry = some id := by
  intro n
  induction n with
  | zero => omega
  | succ m ih =>
    intro _
    rcases Nat.eq_zero_or_pos m with hm | hm
    · subst hm
      rw [Function.iterate_succ_apply', Function.iterate_zero_apply]
      rw [process_streaming_end s hstr hinv hend]
      refine ⟨⟨by simp, by intro x hx; simp at hx; simp [hx]⟩, hstr, rfl, rfl,
        s.nextTimerId, rfl, rfl⟩
    · obtain ⟨ih1, ih2, ih3, ih4, tid, ih5, ih6⟩ := ih hm
      rw [Function.iterate_succ_apply']
      rw [process_streaming_end _ ih2 ih1 (by rw [ih3]; exact hend)]
      refine ⟨⟨by simp, by intro x hx; simp at hx; simp [hx]⟩, ih2, ih3, ih4,
        (processShorteningForContainer^[m] s).nextTimerId, rfl, rfl⟩

theorem scanContainer_processed (b : Bool) (c : MsgContainer)
    (h : c.processed = true) : scanContainer b c = c := by
  unfold scanContainer
  simp [h]

theorem wiredFree_step (i : Nat) (st : ScannerState) (e : ScanEvent)
    (h : WiredFree i st) : WiredFree i (stepScan st e) := by
  obtain ⟨c, hc, hp, hw⟩ := h
  cases e with
  | scan =>
    refine ⟨c, ?_, hp, hw⟩
    simp only [stepScan, scanAndProcessMessages]
    rw [List.getElem?_map, hc]
    simp [scanContainer_processed _ c hp]
  | setShortenEnabled b => exact ⟨c, hc, hp, hw⟩
  | appendContainer hca =>
    refine ⟨c, ?_, hp, hw⟩
    simp only [stepScan]
    have hlt : i < st.containers.length := by
      by_contra hge
      rw [List.getElem?_eq_none (by omega)] at hc
      exact absurd hc (by simp)
    rw [List.getElem?_append, if_pos hlt]
    exact hc

theorem wiredFree_run (i : Nat) (st : ScannerState) (evs : List ScanEvent)
    (h : WiredFree i st) : WiredFree i (runScan st evs) := by
  induction evs generalizing st with
  | nil => exact h
  | cons e es ih => exact ih (stepScan st e) (wiredFree_step i st e h)

/-!
Claim theorems.  Timestamps in hypotheses are positive, reflecting that
`Date.now()` returns milliseconds since the Unix epoch and that
`stableSince` only ever stores such a value or `null`.
-/

/-- C1.  While the watcher is in GENERATING (and the run control is
present), the GENERATING-to-IDLE transition fires on a tick exactly when
the control's label no longer contains the stop text, the post-sampling
`stableSince` is non-null, and `now - stableSince` is at least the 1200 ms
debounce window; the completion sound can only be triggered on the firing
tick itself, and once the transition has fired, any number of subsequent
ticks on which the label still lacks the stop text leave the state
unchanged and never re-trigger the sound. -/
theorem watcher_completion_edge_triggered (s : WatcherState) (i : TickInput)
    (hgen : s.status = .GENERATING) (hbtn : i.runButtonPresent = true)
    (hnow : 0 < i.now)
    (hts : ∀ t, s.stableSince = some t → 0 < t) :
    ((watcherTick s i).1.status = .IDLE ↔
      (i.labelHasStop = false ∧
        ∃ t, (sampleStability s i).stableSince = some t ∧
          (RESPONSE_DEBOUNCE_MS : Int) ≤ (i.now : Int) - (t : Int))) ∧
    ((watcherTick s i).2 = true → (watcherTick s i).1.status = .IDLE) ∧
    (∀ l : List TickInput, (∀ j ∈ l, j.labelHasStop = false) →
      (watcherTick s i).1.status = .IDLE →
      watcherRun (watcherTick s i).1 l = ((watcherTick s i).1, 0)) := by
  have hcc : completionCond (sampleStability s i).stableSince i.labelHasStop i.now = true ↔
      (i.labelHasStop = false ∧
        ∃ t, (sampleStability s i).stableSince = some t ∧
          (RESPONSE_DEBOUNCE_MS : Int) ≤ (i.now : Int) - (t : Int)) := by
    unfold completionCond
    cases hst : (sampleStability s i).stableSince with
    | none => simp
    | some t =>
      have hpos : 0 < t := sampleStability_pos s i hnow hts t hst
      cases hl : i.labelHasStop <;> simp [hpos]
  rw [watcherTick_gen s i hgen hbtn]
  by_cases hfire : completionCond (sampleStability s i).stableSince i.labelHasStop i.now = true
  · refine ⟨?_, ?_, ?_⟩
    · constructor
      · intro _
        exact hcc.mp hfire
      · intro _
        simp [hfire]
    · intro _
      simp [hfire]
    · intro l hl _
      simp only [hfire, if_true]
      exact watcherRun_idle_nostop _ rfl l hl
  · have hf : completionCond (sampleStability s i).stableSince i.labelHasStop i.now = false := by
      revert hfire
      cases completionCond (sampleStability s i).stableSince i.labelHasStop i.now <;> simp
    refine ⟨?_, ?_, ?_⟩
    · constructor
      · intro h
        simp only [hf, Bool.false_eq_true, if_false] at h
        rw [sampleStability_status, hgen] at h
        exact absurd h (by simp)
      · intro h
        exact absurd (hcc.mpr h) (by simp [hf])
    · intro h
      simp only [hf, Bool.false_eq_true, if_false] at h
    · intro l hl hidle
      simp only [hf, Bool.false_eq_true, if_false] at hidle
      rw [sampleStability_status, hgen] at hidle
      exact absurd hidle (by simp)

/-- Witness for C1: in a concrete GENERATING state with a stable content
length and an elapsed debounce window, the transition fires. -/
theorem watcher_completion_edge_triggered_witness :
    (watcherTick wGenState wFireInput).1.status = .IDLE :=
  ((watcher_completion_edge_triggered wGenState wFireInput rfl rfl (by decide)
      (fun t ht => by
        simp only [wGenState, Option.some.injEq] at ht
        omega)).1).mpr
    ⟨rfl, 100, by decide, by decide⟩

/-- C2.  When the finalize debounce timer fires while the end marker is
still present at first index `k` of the markup read at fire time, the
resulting markup is exactly the captured markup-before-marker, then the
placeholder element, then everything after the end marker; the state
attribute becomes `'final'` and the stored markup-before attribute is
removed. -/
theorem shortener_finalize_reconstruction (s : ShortState) (id : Nat)
    (k : Nat) (P : List Char)
    (hid : id ∈ s.liveTimers)
    (hpre : s.htmlBeforeAttr = some P)
    (hk : firstOccurrenceAt s.html END_TAG_ESCAPED k) :
    (fireFinalizeTimer s id).html =
      P ++ placeholderHTML ++ s.html.drop (k + END_TAG_ESCAPED.length) ∧
    (fireFinalizeTimer s id).stateAttr = some "final" ∧
    (fireFinalizeTimer s id).htmlBeforeAttr = none := by
  have hk' := (jsIndexOf_eq_some_iff s.html END_TAG_ESCAPED k).mpr hk
  rw [fire_end_present s id k hid hk']
  refine ⟨?_, rfl, rfl⟩
  rw [hpre]
  rfl

/-- Witness for C2: the specification's test vector.  For fire-time markup
`<p>A</p>&lt;files&gt;BIGBLOB&lt;/files&gt;<p>Z</p>` with captured
markup-before `<p>A</p>`, the finalized markup is exactly
`<p>A</p>` + placeholder + `<p>Z</p>`. -/
theorem shortener_finalize_reconstruction_witness :
    (fireFinalizeTimer c2State 1).html =
      "<p>A</p>".data ++ placeholderHTML ++ "<p>Z</p>".data ∧
    (fireFinalizeTimer c2State 1).stateAttr = some "final" ∧
    (fireFinalizeTimer c2State 1).htmlBeforeAttr = none := by
  have h := shortener_finalize_reconstruction c2State 1 28 ("<p>A</p>".data)
    (by decide) rfl (by decide)
  refine ⟨?_, h.2.1, h.2.2⟩
  rw [h.1]
  decide

/-- C3 counterexample.  On the concrete four-tick trace `c3Trace` starting
from the initial watcher state, the GENERATING-to-IDLE transition fires on
the last tick but does NOT clear `stableSince`: the resulting reachable
state has `status = IDLE` with `stableSince = some 2000`, refuting the
claim that `stableSince` is always null whenever `status = IDLE`. -/
theorem watcher_stableSince_idle_counterexample :
    (watcherRun initialWatcherState c3Trace).1.status = .IDLE ∧
    (watcherRun initialWatcherState c3Trace).1.stableSince = some 2000 := by
  constructor <;> rfl

/-- C3 amended.  `stableSince` is set to a non-null value only on a
GENERATING tick that observed a present container whose content length did
not exceed `lastContentLength` (and the value set is the tick's `now`);
the IDLE-to-GENERATING entry clears `stableSince`; but the
GENERATING-to-IDLE completion transition does NOT clear it, so immediately
after a completed generation the state has `status = IDLE` with
`stableSince` still non-null, until the next IDLE-to-GENERATING entry. -/
theorem watcher_stableSince_lifecycle (s : WatcherState) (i : TickInput) :
    (s.status = .IDLE → i.runButtonPresent = true → i.labelHasStop = true →
      (watcherTick s i).1.stableSince = none) ∧
    (s.stableSince = none → ∀ t, (watcherTick s i).1.stableSince = some t →
      s.status = .GENERATING ∧ t = i.now ∧ i.containerPresent = true ∧
      ((i.contentLen.getD 0 : Nat) : Int) ≤ s.lastContentLength) ∧
    (s.status = .GENERATING → (watcherTick s i).1.status = .IDLE →
      (watcherTick s i).1.stableSince ≠ none) := by
  refine ⟨?_, ?_, ?_⟩
  · intro hidle hbtn hstop
    unfold watcherTick
    simp [hidle, hbtn, hstop]
  · intro hnone t ht
    by_cases hbtn : i.runButtonPresent = true
    · by_cases hidle : s.status = .IDLE ∧ i.labelHasStop = true
      · unfold watcherTick at ht
        simp [hbtn, hidle.1, hidle.2] at ht
      · by_cases hgen : s.status = .GENERATING
        · rw [watcherTick_gen s i hgen hbtn] at ht
          have hs : (sampleStability s i).stableSince = some t := by
            by_cases hfire :
                completionCond (sampleStability s i).stableSince i.labelHasStop i.now = true
            · simpa [hfire] using ht
            · have hf : completionCond (sampleStability s i).stableSince i.labelHasStop i.now
                  = false := by
                revert hfire
                cases completionCond (sampleStability s i).stableSince i.labelHasStop i.now <;>
                  simp
              simpa [hf] using ht
          unfold sampleStability at hs
          by_cases hc : i.containerPresent = true
          · simp [hc] at hs
            by_cases hlt : s.lastContentLength < ((i.contentLen.getD 0 : Nat) : Int)
            · simp [hlt] at hs
            · simp [hlt, hnone] at hs
              exact ⟨hgen, hs.symm, hc, by omega⟩
          · simp [hc] at hs
            rw [hnone] at hs
            exact absurd hs (by simp)
        · unfold watcherTick at ht
          have hni : ¬(s.status = .IDLE ∧ i.labelHasStop = true) := by
            intro hx
            cases hs : s.status with
            | IDLE => exact hidle ⟨hs, hx.2⟩
            | GENERATING => exact hgen hs
          simp [hbtn, hni, hgen] at ht
          rw [hnone] at ht
          exact absurd ht (by simp)
    · unfold watcherTick at ht
      simp [hbtn] at ht
      rw [hnone] at ht
      exact absurd ht (by simp)
  · intro hgen hidle
    by_cases hbtn : i.runButtonPresent = true
    · rw [watcherTick_gen s i hgen hbtn] at hidle ⊢
      by_cases hfire :
          completionCond (sampleStability s i).stableSince i.labelHasStop i.now = true
      · simp only [hfire, if_true]
        have hcc : completionCond (sampleStability s i).stableSince i.labelHasStop i.now
            = true := hfire
        unfold completionCond at hcc
        cases hst : (sampleStability s i).stableSince with
        | none =>
          rw [hst] at hcc
          simp at hcc
        | some t => simp [hst]
      · have hf : completionCond (sampleStability s i).stableSince i.labelHasStop i.now
            = false := by
          revert hfire
          cases completionCond (sampleStability s i).stableSince i.labelHasStop i.now <;> simp
        simp only [hf, Bool.false_eq_true, if_false] at hidle
        rw [sampleStability_status, hgen] at hidle
        exact absurd hidle (by simp)
    · unfold watcherTick at hidle
      simp [hbtn] at hidle
      rw [hgen] at hidle
      exact absurd hidle (by simp)

/-- Witness for the amended C3: the IDLE-to-GENERATING entry clears
`stableSince` on a concrete tick. -/
theorem watcher_stableSince_lifecycle_witness :
    (watcherTick initialWatcherState wStartInput).1.stableSince = none :=
  (watcher_stableSince_lifecycle initialWatcherState wStartInput).1 rfl rfl rfl

/-- C4.  On a GENERATING tick with the run control and a latest message
container present, the stability sampling of `watcherTick` obeys: a
missing content region is treated exactly like a present one of length 0;
if the observed length strictly exceeds `lastContentLength` then
`stableSince` is cleared and `lastContentLength` becomes the observed
length; otherwise if `stableSince` is null it is set to the tick's `now`;
otherwise both fields are left unchanged. -/
theorem watcher_stability_sampling (s : WatcherState) (i : TickInput)
    (hgen : s.status = .GENERATING) (hbtn : i.runButtonPresent = true)
    (hc : i.containerPresent = true) :
    (i.contentLen = none →
      watcherTick s i = watcherTick s { i with contentLen := some 0 }) ∧
    (s.lastContentLength < ((i.contentLen.getD 0 : Nat) : Int) →
      (watcherTick s i).1.stableSince = none ∧
      (watcherTick s i).1.lastContentLength = ((i.contentLen.getD 0 : Nat) : Int)) ∧
    (((i.contentLen.getD 0 : Nat) : Int) ≤ s.lastContentLength →
      s.stableSince = none →
      (watcherTick s i).1.stableSince = some i.now ∧
      (watcherTick s i).1.lastContentLength = s.lastContentLength) ∧
    (((i.contentLen.getD 0 : Nat) : Int) ≤ s.lastContentLength →
      s.stableSince ≠ none →
      (watcherTick s i).1.stableSince = s.stableSince ∧
      (watcherTick s i).1.lastContentLength = s.lastContentLength) := by
  refine ⟨?_, ?_, ?_, ?_⟩
  · intro hnone
    unfold watcherTick sampleStability completionCond
    simp [hnone]
  · intro hlt
    rw [watcherTick_gen s i hgen hbtn]
    have hs : sampleStability s i =
        { s with stableSince := none,
                 lastContentLength := ((i.contentLen.getD 0 : Nat) : Int) } := by
      unfold sampleStability
      simp [hc, hlt]
    split <;> simp [hs]
  · intro hle hnone
    rw [watcherTick_gen s i hgen hbtn]
    have hs : sampleStability s i = { s with stableSince := some i.now } := by
      unfold sampleStability
      simp [hc, hnone]
      omega
    split <;> simp [hs]
  · intro hle hsome
    rw [watcherTick_gen s i hgen hbtn]
    have hs : sampleStability s i = s := by
      unfold sampleStability
      simp [hc, hsome]
      omega
    split <;> simp [hs]

/-- Witness for C4: growing content on a concrete GENERATING tick clears
`stableSince` and updates `lastContentLength`. -/
theorem watcher_stability_sampling_witness :
    (watcherTick wGenState wGrowInput).1.stableSince = none ∧
    (watcherTick wGenState wGrowInput).1.lastContentLength =
      ((wGrowInput.contentLen.getD 0 : Nat) : Int) :=
  (watcher_stability_sampling wGenState wGrowInput rfl rfl rfl).2.1 (by decide)

/-- C5.  The STREAMING-to-FINAL transition (the finalize timer firing with
the end marker present) leaves the observer disconnected and the state
attribute `'final'`; the `'final'` state is absorbing for the processing
step (a defensive early return that changes nothing); and after the
transition every sequence of further events (processing invocations, timer
firings, external mutations) keeps the state attribute `'final'` and never
performs another STREAMING-to-FINAL transition (`finalCount` stays
constant), so the final write cannot re-trigger the shortener. -/
theorem shortener_no_feedback_final_absorbing (s : ShortState) (id : Nat) (k : Nat)
    (hinv : TimerInv s) (hid : id ∈ s.liveTimers)
    (hk : firstOccurrenceAt s.html END_TAG_ESCAPED k) :
    (fireFinalizeTimer s id).observerConnected = false ∧
    (fireFinalizeTimer s id).stateAttr = some "final" ∧
    (∀ t : ShortState, t.stateAttr = some "final" →
      processShorteningForContainer t = t) ∧
    (∀ evs : List SEvent,
      (runShort (fireFinalizeTimer s id) evs).stateAttr = some "final" ∧
      (runShort (fireFinalizeTimer s id) evs).finalCount =
        (fireFinalizeTimer s id).finalCount) := by
  have hk' := (jsIndexOf_eq_some_iff s.html END_TAG_ESCAPED k).mpr hk
  obtain ⟨hl, hm⟩ := timerInv_mem_eq s hinv id hid
  have hfe := fire_end_present s id k hid hk'
  have hdead : FinalDead (fireFinalizeTimer s id) := by
    rw [hfe]
    refine ⟨rfl, ?_⟩
    rw [hm, hl]
    simp
  refine ⟨by rw [hfe], by rw [hfe], process_final, ?_⟩
  intro evs
  obtain ⟨⟨h1, _⟩, h2⟩ := finalDead_run (fireFinalizeTimer s id) evs hdead
  exact ⟨h1, h2⟩

/-- Witness for C5: firing the pending timer of the concrete streaming
container disconnects its observer and finalizes it. -/
theorem shortener_no_feedback_final_absorbing_witness :
    (fireFinalizeTimer c2State 1).observerConnected = false ∧
    (fireFinalizeTimer c2State 1).stateAttr = some "final" := by
  have h := shortener_no_feedback_final_absorbing c2State 1 28 (by decide)
    (by decide) (by decide)
  exact ⟨h.1, h.2.1⟩

/-- C6.  Every shortener event preserves the at-most-one-outstanding-timer
invariant; and from a STREAMING state (satisfying the invariant) whose
markup contains the end marker, delivering the processing invocation any
number `n ≥ 1` of times leaves exactly one outstanding finalize timer,
whose firing performs exactly one STREAMING-to-FINAL transition
(`finalCount` rises by exactly one and stays there under all further
events). -/
theorem shortener_debounce_supersede (s : ShortState) (n : Nat) (hn : 1 ≤ n)
    (hinv : TimerInv s) (hstr : s.stateAttr = some "streaming")
    (hend : jsIncludes s.html END_TAG_ESCAPED = true) :
    (∀ u : ShortState, TimerInv u → ∀ e : SEvent, TimerInv (stepShort u e)) ∧
    (∃ id, (processShorteningForContainer^[n] s).liveTimers = [id] ∧
      (fireFinalizeTimer (processShorteningForContainer^[n] s) id).finalCount =
        s.finalCount + 1 ∧
      (fireFinalizeTimer (processShorteningForContainer^[n] s) id).stateAttr =
        some "final" ∧
      ∀ evs : List SEvent,
        (runShort (fireFinalizeTimer (processShorteningForContainer^[n] s) id) evs).finalCount =
          s.finalCount + 1) := by
  refine ⟨fun u hu e => timerInv_step u e hu, ?_⟩
  obtain ⟨hInv, hAttr, hHtml, hCnt, id, hLive, hMap⟩ :=
    process_iter_streaming s hinv hstr hend n hn
  have hkex : ∃ k, jsIndexOf (processShorteningForContainer^[n] s).html
      END_TAG_ESCAPED = some k := by
    rw [hHtml]
    have hi := hend
    unfold jsIncludes at hi
    exact Option.isSome_iff_exists.mp hi
  obtain ⟨k, hk⟩ := hkex
  have hid : id ∈ (processShorteningForContainer^[n] s).liveTimers := by
    rw [hLive]
    simp
  have hfe := fire_end_present (processShorteningForContainer^[n] s) id k hid hk
  have hdead : FinalDead (fireFinalizeTimer (processShorteningForContainer^[n] s) id) := by
    rw [hfe]
    refine ⟨rfl, ?_⟩
    rw [hMap, hLive]
    simp
  refine ⟨id, hLive, ?_, by rw [hfe], ?_⟩
  · rw [hfe]
    simp [hCnt]
  · intro evs
    obtain ⟨_, h2⟩ := finalDead_run _ evs hdead
    rw [h2, hfe]
    simp [hCnt]

/-- Witness for C6: three deliveries of the end-marker notification on the
concrete streaming container leave one timer whose firing performs exactly
one FINAL transition. -/
theorem shortener_debounce_supersede_witness :
    ∃ id, (processShorteningForContainer^[3] c2State).liveTimers = [id] ∧
      (fireFinalizeTimer (processShorteningForContainer^[3] c2State) id).finalCount =
        c2State.finalCount + 1 ∧
      (fireFinalizeTimer (processShorteningForContainer^[3] c2State) id).stateAttr =
        some "final" ∧
      ∀ evs : List SEvent,
        (runShort (fireFinalizeTimer (processShorteningForContainer^[3] c2State) id)
          evs).finalCount = c2State.finalCount + 1 :=
  (shortener_debounce_supersede c2State 3 (by decide) (by decide) rfl (by decide)).2

/-- C7.  If the finalize timer fires but the re-read markup no longer
contains the end marker anywhere, no STREAMING-to-FINAL transition occurs:
the only change is that the fired timer is consumed — the state attribute
remains `'streaming'`, the markup, the stored markup-before attribute, the
observer connection and the transition count are all unchanged, and the
step is total (no error escapes). -/
theorem shortener_marker_vanish_reversion (s : ShortState) (id : Nat)
    (hid : id ∈ s.liveTimers)
    (hstr : s.stateAttr = some "streaming")
    (hvanish : ∀ j, ¬ occursAt s.html END_TAG_ESCAPED j) :
    fireFinalizeTimer s id = { s with liveTimers := s.liveTimers.erase id } ∧
    (fireFinalizeTimer s id).stateAttr = some "streaming" ∧
    (fireFinalizeTimer s id).html = s.html ∧
    (fireFinalizeTimer s id).htmlBeforeAttr = s.htmlBeforeAttr ∧
    (fireFinalizeTimer s id).finalCount = s.finalCount := by
  have hnone := (jsIndexOf_eq_none_iff s.html END_TAG_ESCAPED).mpr hvanish
  have heq : fireFinalizeTimer s id = { s with liveTimers := s.liveTimers.erase id } := by
    unfold fireFinalizeTimer
    simp [hid, hnone]
  refine ⟨heq, ?_, ?_, ?_, ?_⟩
  · rw [heq]
    exact hstr
  · rw [heq]
  · rw [heq]
  · rw [heq]

/-- Witness for C7: on a concrete streaming container whose markup lost
the end marker, firing the timer only consumes it. -/
theorem shortener_marker_vanish_reversion_witness :
    fireFinalizeTimer c7State 1 =
      { c7State with liveTimers := c7State.liveTimers.erase 1 } :=
  (shortener_marker_vanish_reversion c7State 1 (by decide) rfl
    ((jsIndexOf_eq_none_iff c7State.html END_TAG_ESCAPED).mp (by decide))).1

/-- C8.  For a container not yet in the `'streaming'` or `'final'` state
(the INITIAL phase), one processing invocation behaves as follows: if the
start marker first occurs at index `k`, it records the markup preceding
the marker, replaces the whole markup by that preceding part followed by
the placeholder (discarding everything at or after the marker), and sets
the state attribute to `'streaming'`; if the start marker occurs nowhere,
the container state is completely unchanged. -/
theorem shortener_initial_to_streaming (s : ShortState)
    (hns : s.stateAttr ≠ some "streaming") (hnf : s.stateAttr ≠ some "final") :
    (∀ k, firstOccurrenceAt s.html START_TAG_ESCAPED k →
      processShorteningForContainer s =
        { s with htmlBeforeAttr := some (s.html.take k),
                 html := s.html.take k ++ placeholderHTML,
                 stateAttr := some "streaming" }) ∧
    ((∀ j, ¬ occursAt s.html START_TAG_ESCAPED j) →
      processShorteningForContainer s = s) := by
  constructor
  · intro k hk
    have hk' := (jsIndexOf_eq_some_iff s.html START_TAG_ESCAPED k).mpr hk
    unfold processShorteningForContainer
    simp [hns, hnf, hk']
  · intro hv
    have hnone := (jsIndexOf_eq_none_iff s.html START_TAG_ESCAPED).mpr hv
    unfold processShorteningForContainer
    simp [hns, hnf, hnone]

/-- Witness for C8: a concrete freshly wired container whose markup holds
the start marker at index 8 transitions to streaming with the 8-character
markup-before captured. -/
theorem shortener_initial_to_streaming_witness :
    processShorteningForContainer c8State =
      { c8State with htmlBeforeAttr := some (c8State.html.take 8),
                     html := c8State.html.take 8 ++ placeholderHTML,
                     stateAttr := some "streaming" } :=
  (shortener_initial_to_streaming c8State (by decide) (by decide)).1 8 (by decide)

/-- C9.  On a tick where the watcher is IDLE, the run control is present
and its label contains the stop text, the tick performs exactly the
IDLE-to-GENERATING transition: the new state has status GENERATING,
`lastContentLength` reset to -1, `stableSince` cleared, and sound settings
reloaded from storage with the default record
`{enabled := false, sound := "complete1", volume := 1/2}` applied when the
key is unset; no sound is triggered and (as the full-state equality shows)
no content-length sampling or completion check happens on that tick. -/
theorem watcher_idle_to_generating (s : WatcherState) (i : TickInput)
    (hidle : s.status = .IDLE) (hbtn : i.runButtonPresent = true)
    (hstop : i.labelHasStop = true) :
    watcherTick s i =
      ({ status := .GENERATING, lastContentLength := -1, stableSince := none,
         soundSettings := some (i.storedSoundSettings.getD defaultSoundSettings) },
       false) ∧
    defaultSoundSettings =
      { enabled := false, sound := "complete1", volume := 1/2 } := by
  constructor
  · unfold watcherTick
    simp [hidle, hbtn, hstop]
  · rfl

/-- Witness for C9: the concrete initial state entering GENERATING. -/
theorem watcher_idle_to_generating_witness :
    watcherTick initialWatcherState wStartInput =
      ({ status := .GENERATING, lastContentLength := -1, stableSince := none,
         soundSettings :=
           some (wStartInput.storedSoundSettings.getD defaultSoundSettings) },
       false) :=
  (watcher_idle_to_generating initialWatcherState wStartInput rfl rfl rfl).1

/-- C10.  A container scanned while the shortening feature is disabled is
marked processed with no shortener wired; a processed container without
wiring keeps exactly that configuration under every sequence of scanner
events (scans, feature toggles, container appends), so enabling the
feature later never attaches a shortener to it; whereas an unprocessed
container with a content area scanned while the feature is enabled does
get a shortener wired. -/
theorem scanner_processed_never_rewired (st : ScannerState) (i : Nat)
    (c : MsgContainer) (hc : st.containers[i]? = some c) :
    (st.isShortenEnabled = false → c.processed = false →
      c.shortenerWired = false →
      ∃ c1, (stepScan st .scan).containers[i]? = some c1 ∧
        c1.processed = true ∧ c1.shortenerWired = false) ∧
    (c.processed = true → c.shortenerWired = false →
      ∀ evs : List ScanEvent,
        ∃ c2, (runScan st evs).containers[i]? = some c2 ∧
          c2.processed = true ∧ c2.shortenerWired = false) ∧
    (∀ st' : ScannerState, ∀ j : Nat, ∀ c0 : MsgContainer,
      st'.isShortenEnabled = true → st'.containers[j]? = some c0 →
      c0.processed = false → c0.hasContentArea = true →
      ∃ c3, (stepScan st' .scan).containers[j]? = some c3 ∧
        c3.processed = true ∧ c3.shortenerWired = true) := by
  refine ⟨?_, ?_, ?_⟩
  · intro hen hp hw
    refine ⟨{ c with processed := true }, ?_, rfl, hw⟩
    simp only [stepScan, scanAndProcessMessages]
    rw [List.getElem?_map, hc]
    unfold scanContainer
    simp [hp, hen]
  · intro hp hw evs
    exact wiredFree_run i st evs ⟨c, hc, hp, hw⟩
  · intro st' j c0 hen hc0 hp0 hca
    refine ⟨{ c0 with processed := true, shortenerWired := true }, ?_, rfl, rfl⟩
    simp only [stepScan, scanAndProcessMessages]
    rw [List.getElem?_map, hc0]
    unfold scanContainer
    by_cases hw0 : c0.shortenerWired = true
    · simp [hp0, hen, hca, hw0]
    · simp at hw0
      simp [hp0, hen, hca, hw0]

/-- Witness for C10: the concrete processed, unwired container stays
unwired when the feature is enabled and a scan runs. -/
theorem scanner_processed_never_rewired_witness :
    ∃ c2,
      (runScan c10State
        [ScanEvent.setShortenEnabled true, ScanEvent.scan]).containers[0]? = some c2 ∧
      c2.processed = true ∧ c2.shortenerWired = false :=
  (scanner_processed_never_rewired c10State 0
    { processed := true, hasContentArea := true, shortenerWired := false }
    (by decide)).2.1 rfl rfl
    [ScanEvent.setShortenEnabled true, ScanEvent.scan]

end LitSync
